import Mathlib

/-!
Shallow embedding of the workout-tracker core:
  * the data model and range-resolution helpers of `src/types/workout.ts`,
  * the workout session state machine of `useWorkout.ts`,
  * the countdown timer of `useTimer.ts`.
Each definition mirrors the corresponding TypeScript function; theorems below
settle the specification claims against these definitions.
-/

namespace WorkoutTracker

/-! ## Data model (`src/types/workout.ts`) -/

/-- `Duration = number | {min, max}` (also the shape of `RepCount`).
Numeric values are modelled as rationals; the inputs of interest are integers. -/
inductive Duration where
  | fixed (n : ℚ)
  | range (lo hi : ℚ)
deriving DecidableEq, Repr

/-- `getTimerDuration`: a fixed number is returned unchanged; a range resolves
to `Math.round((min + max) / 2)`.  JavaScript `Math.round x = ⌊x + 1/2⌋`,
which is exactly Mathlib's `round` on `ℚ`. -/
def getTimerDuration : Duration → ℚ
  | .fixed n => n
  | .range lo hi => ((round ((lo + hi) / 2) : ℤ) : ℚ)

/-- The discriminant of the `Exercise` union: `'timer'` with a duration, or
`'reps'` with a rep count. -/
inductive ExerciseKind where
  | timer (duration : Duration)
  | reps (repCount : Duration)
deriving DecidableEq, Repr

/-- An `Exercise` (`TimerExercise | RepsExercise`): the shared base fields that
the state machine reads, plus the discriminated payload. -/
structure Exercise where
  name : String
  sets : ℕ
  restAfterSet : ℕ
  kind : ExerciseKind
deriving DecidableEq, Repr

/-- `isTimerExercise` type guard. -/
def isTimerExercise (e : Exercise) : Bool :=
  match e.kind with
  | .timer _ => true
  | .reps _ => false

/-- A `WorkoutSection`. -/
structure WorkoutSection where
  name : String
  exercises : List Exercise
deriving DecidableEq, Repr

/-- A `Workout`. -/
structure Workout where
  name : String
  sections : List WorkoutSection
deriving DecidableEq, Repr

/-- `WorkoutPhase` enum. -/
inductive WorkoutPhase where
  | IDLE
  | EXERCISING
  | RESTING
  | COMPLETED
deriving DecidableEq, Repr

/-- `WorkoutState`. -/
structure WorkoutState where
  phase : WorkoutPhase
  sectionIndex : ℕ
  exerciseIndex : ℕ
  currentSet : ℕ
  restDuration : ℕ
deriving DecidableEq, Repr

/-- Well-formedness of the supplied workout data, as assumed by the spec:
non-empty section list, every section non-empty, every exercise with
`sets ≥ 1`. -/
def WellFormed (w : Workout) : Prop :=
  w.sections ≠ [] ∧
    ∀ sec ∈ w.sections, sec.exercises ≠ [] ∧ ∀ e ∈ sec.exercises, 1 ≤ e.sets

instance (w : Workout) : Decidable (WellFormed w) := by
  unfold WellFormed; infer_instance

/-! ## Workout session state machine (`useWorkout.ts`) -/

/-- `INITIAL_STATE`. -/
def INITIAL_STATE : WorkoutState :=
  { phase := .IDLE
    sectionIndex := 0
    exerciseIndex := 0
    currentSet := 1
    restDuration := 0 }

/-- `getExercise`: `workout.sections[s.sectionIndex]?.exercises[s.exerciseIndex] ?? null`. -/
def getExercise (w : Workout) (s : WorkoutState) : Option Exercise :=
  (w.sections[s.sectionIndex]?).bind fun sec => sec.exercises[s.exerciseIndex]?

/-- `startWorkout`: `setState(prev => ({ ...prev, phase: EXERCISING }))` —
note: no phase guard in the source. -/
def startWorkout (prev : WorkoutState) : WorkoutState :=
  { prev with phase := .EXERCISING }

/-- `completeSet`: the four-branch cascade of `useWorkout.ts`, guarded only by
the cursor lookups (`if (!section || !exercise) return prev`). -/
def completeSet (w : Workout) (prev : WorkoutState) : WorkoutState :=
  match w.sections[prev.sectionIndex]? with
  | none => prev
  | some sec =>
    match sec.exercises[prev.exerciseIndex]? with
    | none => prev
    | some exercise =>
      let restDuration := exercise.restAfterSet
      if prev.currentSet < exercise.sets then
        { prev with
            phase := .RESTING
            currentSet := prev.currentSet + 1
            restDuration := restDuration }
      else if prev.exerciseIndex < sec.exercises.length - 1 then
        { prev with
            phase := .RESTING
            exerciseIndex := prev.exerciseIndex + 1
            currentSet := 1
            restDuration := restDuration }
      else if prev.sectionIndex < w.sections.length - 1 then
        { prev with
            phase := .RESTING
            sectionIndex := prev.sectionIndex + 1
            exerciseIndex := 0
            currentSet := 1
            restDuration := restDuration }
      else
        { prev with phase := .COMPLETED }

/-- `afterRest`: no-op unless `phase = RESTING`, otherwise only flips the phase
back to `EXERCISING`. -/
def afterRest (prev : WorkoutState) : WorkoutState :=
  if prev.phase = .RESTING then { prev with phase := .EXERCISING } else prev

/-- `restartWorkout`: `setState(INITIAL_STATE)`. -/
def restartWorkout (_prev : WorkoutState) : WorkoutState :=
  INITIAL_STATE

/-- `totalExercises`: `workout.sections.reduce((sum, s) => sum + s.exercises.length, 0)`. -/
def totalExercises (w : Workout) : ℕ :=
  w.sections.foldl (fun sum sec => sum + sec.exercises.length) 0

/-- `completedExercises`: exercises in sections strictly before the cursor
(`slice(0, sectionIndex)`) plus `exerciseIndex`. -/
def completedExercises (w : Workout) (s : WorkoutState) : ℕ :=
  (w.sections.take s.sectionIndex).foldl
      (fun sum sec => sum + sec.exercises.length) 0 +
    s.exerciseIndex

/-- `currentTimerDuration`: the resolved duration when the current exercise is
a timer exercise, `none` otherwise. -/
def currentTimerDuration (w : Workout) (s : WorkoutState) : Option ℚ :=
  match getExercise w s with
  | some e =>
    match e.kind with
    | .timer d => some (getTimerDuration d)
    | .reps _ => none
  | none => none

/-- States reachable from `INITIAL_STATE` by the session's public transitions. -/
inductive SessionReachable (w : Workout) : WorkoutState → Prop where
  | init : SessionReachable w INITIAL_STATE
  | start {s} : SessionReachable w s → SessionReachable w (startWorkout s)
  | complete {s} : SessionReachable w s → SessionReachable w (completeSet w s)
  | rest {s} : SessionReachable w s → SessionReachable w (afterRest s)
  | restart {s} : SessionReachable w s → SessionReachable w (restartWorkout s)

/-! ## Countdown timer (`useTimer.ts`) -/

/-- `TimerStatus = 'idle' | 'running' | 'paused' | 'finished'`. -/
inductive TimerStatus where
  | idle
  | running
  | paused
  | finished
deriving DecidableEq, Repr

/-- Timer state: the two `useState` cells plus `status`, the liveness of the
interval (`intervalRef.current !== null`), and an instrumentation counter for
invocations of the completion callback. -/
structure TimerState where
  timeRemaining : ℤ
  totalTime : ℤ
  status : TimerStatus
  ticking : Bool
  completions : ℕ
deriving DecidableEq, Repr

/-- The state of a freshly constructed `useTimer(initialDuration)`. -/
def initTimer (initialDuration : ℤ) : TimerState :=
  { timeRemaining := initialDuration
    totalTime := initialDuration
    status := .idle
    ticking := false
    completions := 0 }

/-- `start(d)`: cancel any interval, set both time cells to `d`, run, and
install a fresh interval. -/
def startT (d : ℤ) (s : TimerState) : TimerState :=
  { s with timeRemaining := d, totalTime := d, status := .running, ticking := true }

/-- `pause()`: `clearIntervalSafe(); setStatus('paused')` — no status guard in
the source. -/
def pauseT (s : TimerState) : TimerState :=
  { s with ticking := false, status := .paused }

/-- `resume()`: guarded by `status !== 'paused'`; reinstalls the interval. -/
def resumeT (s : TimerState) : TimerState :=
  if s.status = .paused then { s with status := .running, ticking := true } else s

/-- `reset()`: cancel the interval and restore the initial duration. -/
def resetT (initialDuration : ℤ) (s : TimerState) : TimerState :=
  { s with
      timeRemaining := initialDuration
      totalTime := initialDuration
      status := .idle
      ticking := false }

/-- One firing of the interval callback: when the interval is live, a value
`≤ 1` clamps to `0`, clears the interval, finishes, and fires the completion
callback; otherwise the time decrements by 1.  When no interval is live
nothing fires. -/
def tickT (s : TimerState) : TimerState :=
  if s.ticking then
    if s.timeRemaining ≤ 1 then
      { s with
          timeRemaining := 0
          status := .finished
          ticking := false
          completions := s.completions + 1 }
    else
      { s with timeRemaining := s.timeRemaining - 1 }
  else s

/-- `k` consecutive interval firings. -/
def ticks : ℕ → TimerState → TimerState
  | 0, s => s
  | k + 1, s => ticks k (tickT s)

/-- Timer states reachable from construction via the public controls and the
interval, with every explicit `start` duration a positive integer. -/
inductive TimerReachable (initialDuration : ℤ) : TimerState → Prop where
  | init : TimerReachable initialDuration (initTimer initialDuration)
  | start {s} (d : ℤ) (hd : 1 ≤ d) :
      TimerReachable initialDuration s → TimerReachable initialDuration (startT d s)
  | pause {s} :
      TimerReachable initialDuration s → TimerReachable initialDuration (pauseT s)
  | resume {s} :
      TimerReachable initialDuration s → TimerReachable initialDuration (resumeT s)
  | reset {s} :
      TimerReachable initialDuration s → TimerReachable initialDuration (resetT initialDuration s)
  | tick {s} :
      TimerReachable initialDuration s → TimerReachable initialDuration (tickT s)

/-- Timer reachability restricted to disciplined use of `pause()`: it is only
invoked while the timer is running (which is how the UI drives it). -/
inductive TimerReachableG (initialDuration : ℤ) : TimerState → Prop where
  | init : TimerReachableG initialDuration (initTimer initialDuration)
  | start {s} (d : ℤ) (hd : 1 ≤ d) :
      TimerReachableG initialDuration s → TimerReachableG initialDuration (startT d s)
  | pause {s} (hrun : s.status = .running) :
      TimerReachableG initialDuration s → TimerReachableG initialDuration (pauseT s)
  | resume {s} :
      TimerReachableG initialDuration s → TimerReachableG initialDuration (resumeT s)
  | reset {s} :
      TimerReachableG initialDuration s → TimerReachableG initialDuration (resetT initialDuration s)
  | tick {s} :
      TimerReachableG initialDuration s → TimerReachableG initialDuration (tickT s)

/-! ## Concrete workouts used in counterexamples and witnesses -/

/-- A two-set reps exercise with a 5-second rest. -/
def pushups : Exercise :=
  { name := "pushups", sets := 2, restAfterSet := 5, kind := .reps (.fixed 10) }

/-- A single-set timed exercise with a 5-second rest. -/
def plank : Exercise :=
  { name := "plank", sets := 1, restAfterSet := 5, kind := .timer (.fixed 10) }

/-- A two-set exercise with `restAfterSet = 0`. -/
def squats : Exercise :=
  { name := "squats", sets := 2, restAfterSet := 0, kind := .reps (.fixed 8) }

/-- A section holding the single two-set exercise. -/
def demoSection : WorkoutSection := { name := "main", exercises := [pushups] }

/-- One section holding the single two-set exercise. -/
def demoWorkout : Workout := { name := "demo", sections := [demoSection] }

/-- A section holding one single-set exercise. -/
def singleSection : WorkoutSection := { name := "main", exercises := [plank] }

/-- One section holding one single-set exercise. -/
def singleWorkout : Workout := { name := "single", sections := [singleSection] }

/-- A section with a rest-5 exercise followed by a rest-0 exercise. -/
def noRestSection : WorkoutSection := { name := "main", exercises := [plank, squats] }

/-- One section: a rest-5 exercise followed by a rest-0 exercise. -/
def noRestWorkout : Workout := { name := "norest", sections := [noRestSection] }

/-! ## C3: completeSet has no phase guard -/

/-- C3 counterexample: from the initial state (phase `IDLE`, not `EXERCISING`)
with in-range cursors, `completeSet` is *not* a no-op — it advances the set and
enters `RESTING`. -/
theorem C3_counterexample :
    INITIAL_STATE.phase ≠ WorkoutPhase.EXERCISING ∧
      completeSet demoWorkout INITIAL_STATE ≠ INITIAL_STATE ∧
      (completeSet demoWorkout INITIAL_STATE).phase = WorkoutPhase.RESTING := by
  decide

/-- C3 amended: `completeSet` is a silent no-op exactly when the cursor fails
to resolve an exercise; it never consults the phase, so with in-range cursors
it behaves identically from every phase. -/
theorem C3_completeSet_guard_is_cursor_only (w : Workout) (s : WorkoutState)
    (p : WorkoutPhase) :
    (getExercise w s = none → completeSet w s = s) ∧
      (getExercise w s ≠ none →
        completeSet w { s with phase := p } = completeSet w s) := by
  constructor
  · intro hnone
    unfold getExercise at hnone
    cases hsec : w.sections[s.sectionIndex]? with
    | none => simp only [completeSet, hsec]
    | some sec =>
      rw [hsec] at hnone
      simp only [Option.some_bind] at hnone
      simp only [completeSet, hsec, hnone]
  · intro hsome
    unfold getExercise at hsome
    cases hsec : w.sections[s.sectionIndex]? with
    | none => rw [hsec] at hsome; simp at hsome
    | some sec =>
      rw [hsec] at hsome
      simp only [Option.some_bind] at hsome
      cases hex : sec.exercises[s.exerciseIndex]? with
      | none => exact absurd hex hsome
      | some ex =>
        simp only [completeSet, hsec, hex]

/-- C3 amended, instantiated: an out-of-range state is untouched, and from
phase `RESTING` the in-range initial cursors drive the same transition as from
`EXERCISING`. -/
theorem C3_completeSet_guard_is_cursor_only_witness :
    (completeSet demoWorkout { INITIAL_STATE with sectionIndex := 7 } =
        { INITIAL_STATE with sectionIndex := 7 }) ∧
      completeSet demoWorkout { INITIAL_STATE with phase := .RESTING } =
        completeSet demoWorkout INITIAL_STATE :=
  ⟨(C3_completeSet_guard_is_cursor_only demoWorkout
      { INITIAL_STATE with sectionIndex := 7 } .RESTING).1 (by decide),
   (C3_completeSet_guard_is_cursor_only demoWorkout INITIAL_STATE .RESTING).2
      (by decide)⟩

/-! ## C4: startWorkout has no phase guard -/

/-- C4 counterexample: `startWorkout` from phase `RESTING` changes the state
(to `EXERCISING`) instead of being a silent no-op. -/
theorem C4_counterexample :
    startWorkout { INITIAL_STATE with phase := .RESTING } ≠
        { INITIAL_STATE with phase := .RESTING } ∧
      (startWorkout { INITIAL_STATE with phase := .RESTING }).phase =
        WorkoutPhase.EXERCISING := by
  decide

/-- C4 amended: `startWorkout` unconditionally sets `phase = EXERCISING`,
leaving all cursors untouched; it is a (value-level) no-op only when the phase
is already `EXERCISING`. -/
theorem C4_startWorkout_unconditional (s : WorkoutState) :
    (startWorkout s).phase = WorkoutPhase.EXERCISING ∧
      (startWorkout s).sectionIndex = s.sectionIndex ∧
      (startWorkout s).exerciseIndex = s.exerciseIndex ∧
      (startWorkout s).currentSet = s.currentSet ∧
      (startWorkout s).restDuration = s.restDuration ∧
      (s.phase = WorkoutPhase.EXERCISING → startWorkout s = s) := by
  refine ⟨rfl, rfl, rfl, rfl, rfl, ?_⟩
  intro h
  unfold startWorkout
  rw [← h]

/-- C4 amended, instantiated at a state already `EXERCISING`. -/
theorem C4_startWorkout_unconditional_witness :
    startWorkout { INITIAL_STATE with phase := .EXERCISING } =
      { INITIAL_STATE with phase := .EXERCISING } :=
  (C4_startWorkout_unconditional { INITIAL_STATE with phase := .EXERCISING }).2.2.2.2.2
    rfl

/-! ## C5: pause has no status guard -/

/-- C5 counterexample: `pause()` on an idle timer is not a no-op — it moves the
status to `paused`. -/
theorem C5_counterexample :
    pauseT (initTimer 5) ≠ initTimer 5 ∧
      (initTimer 5).status = TimerStatus.idle ∧
      (pauseT (initTimer 5)).status = TimerStatus.paused := by
  decide

/-- C5 amended: `pause()` unconditionally stops ticking and sets
`status = paused`, preserving `timeRemaining` and `totalTime`, from every
status — it is not guarded to `running`. -/
theorem C5_pause_unconditional (s : TimerState) :
    (pauseT s).status = TimerStatus.paused ∧
      (pauseT s).ticking = false ∧
      (pauseT s).timeRemaining = s.timeRemaining ∧
      (pauseT s).totalTime = s.totalTime ∧
      (pauseT s).completions = s.completions :=
  ⟨rfl, rfl, rfl, rfl, rfl⟩

/-! ## C8: range resolution -/

/-- C8: `getTimerDuration` returns a fixed duration unchanged and resolves a
range to `round((min + max) / 2)`; `currentTimerDuration` exposes exactly this
value for a timer exercise; `{40, 60}` resolves to `50` and `{5, 6}` to `6`. -/
theorem C8_range_resolution :
    (∀ n : ℚ, getTimerDuration (.fixed n) = n) ∧
      (∀ lo hi : ℚ,
        getTimerDuration (.range lo hi) = ((round ((lo + hi) / 2) : ℤ) : ℚ)) ∧
      (∀ (w : Workout) (s : WorkoutState) (e : Exercise) (d : Duration),
        getExercise w s = some e → e.kind = .timer d →
          currentTimerDuration w s = some (getTimerDuration d)) ∧
      getTimerDuration (.range 40 60) = 50 ∧
      getTimerDuration (.range 5 6) = 6 := by
  refine ⟨fun n => rfl, fun lo hi => rfl, ?_, ?_, ?_⟩
  · intro w s e d hget hkind
    simp only [currentTimerDuration, hget, hkind]
  · norm_num [getTimerDuration, round_eq]
  · norm_num [getTimerDuration, round_eq]

/-- C8, instantiated: the single-exercise workout's current timed exercise
resolves to its fixed 10-second duration. -/
theorem C8_range_resolution_witness :
    currentTimerDuration singleWorkout INITIAL_STATE =
      some (getTimerDuration (.fixed 10)) :=
  C8_range_resolution.2.2.1 singleWorkout INITIAL_STATE plank (.fixed 10)
    (by decide) rfl

/-! ## C1: the completeSet priority cascade -/

/-- C1: from `EXERCISING` with in-range cursors, `completeSet` fires exactly
one branch of the strict priority cascade — set advance before exercise
advance before section advance before completion — setting `phase = RESTING`
and `restDuration = exercise.restAfterSet` in the first three branches, and
`phase = COMPLETED` (no rest) in the last. -/
theorem C1_completeSet_cascade (w : Workout) (s : WorkoutState)
    (sec : WorkoutSection) (ex : Exercise)
    (hph : s.phase = WorkoutPhase.EXERCISING)
    (hsec : w.sections[s.sectionIndex]? = some sec)
    (hex : sec.exercises[s.exerciseIndex]? = some ex) :
    (s.currentSet < ex.sets →
      completeSet w s =
        { s with
            phase := .RESTING
            currentSet := s.currentSet + 1
            restDuration := ex.restAfterSet }) ∧
      (¬ s.currentSet < ex.sets → s.exerciseIndex < sec.exercises.length - 1 →
        completeSet w s =
          { s with
              phase := .RESTING
              exerciseIndex := s.exerciseIndex + 1
              currentSet := 1
              restDuration := ex.restAfterSet }) ∧
      (¬ s.currentSet < ex.sets → ¬ s.exerciseIndex < sec.exercises.length - 1 →
          s.sectionIndex < w.sections.length - 1 →
        completeSet w s =
          { s with
              phase := .RESTING
              sectionIndex := s.sectionIndex + 1
              exerciseIndex := 0
              currentSet := 1
              restDuration := ex.restAfterSet }) ∧
      (¬ s.currentSet < ex.sets → ¬ s.exerciseIndex < sec.exercises.length - 1 →
          ¬ s.sectionIndex < w.sections.length - 1 →
        completeSet w s = { s with phase := .COMPLETED }) := by
  refine ⟨?_, ?_, ?_, ?_⟩ <;>
    · intros
      simp only [completeSet, hsec, hex]
      split_ifs
      rfl

/-- C1, instantiated: completing the first of the two sets of `pushups` rests
and advances only the set counter. -/
theorem C1_completeSet_cascade_witness :
    completeSet demoWorkout (startWorkout INITIAL_STATE) =
      { phase := .RESTING, sectionIndex := 0, exerciseIndex := 0,
        currentSet := 2, restDuration := 5 } := by
  have h :=
    (C1_completeSet_cascade demoWorkout (startWorkout INITIAL_STATE) demoSection
        pushups rfl (by decide) (by decide)).1 (by decide)
  rw [h]
  decide

/-! ## C9: the frame of afterRest and the life cycle of restDuration -/

/-- C9 counterexample: after completing the first set of the rest-0 exercise,
`restDuration` drops from 5 back to 0 through `completeSet`, without any
`restartWorkout` (the resulting state is not the initial state). -/
theorem C9_counterexample :
    (afterRest (completeSet noRestWorkout (startWorkout INITIAL_STATE))).restDuration
        = 5 ∧
      (completeSet noRestWorkout
          (afterRest (completeSet noRestWorkout
            (startWorkout INITIAL_STATE)))).restDuration = 0 ∧
      completeSet noRestWorkout
          (afterRest (completeSet noRestWorkout (startWorkout INITIAL_STATE))) ≠
        INITIAL_STATE := by
  decide

/-- C9 amended: `afterRest` changes only the phase (`RESTING → EXERCISING`,
no-op otherwise); `startWorkout` and `afterRest` never write `restDuration`;
`completeSet` either leaves it unchanged or sets it to the current exercise's
`restAfterSet` (which may be 0); `restartWorkout` resets it to 0. -/
theorem C9_afterRest_frame :
    (∀ s : WorkoutState,
        (afterRest s).restDuration = s.restDuration ∧
          (afterRest s).sectionIndex = s.sectionIndex ∧
          (afterRest s).exerciseIndex = s.exerciseIndex ∧
          (afterRest s).currentSet = s.currentSet) ∧
      (∀ s : WorkoutState, s.phase = WorkoutPhase.RESTING →
        afterRest s = { s with phase := .EXERCISING }) ∧
      (∀ s : WorkoutState, s.phase ≠ WorkoutPhase.RESTING → afterRest s = s) ∧
      (∀ s : WorkoutState, (startWorkout s).restDuration = s.restDuration) ∧
      (∀ (w : Workout) (s : WorkoutState),
        (completeSet w s).restDuration = s.restDuration ∨
          ∃ ex, getExercise w s = some ex ∧
            (completeSet w s).restDuration = ex.restAfterSet) ∧
      (∀ s : WorkoutState, (restartWorkout s).restDuration = 0) := by
  refine ⟨?_, ?_, ?_, fun s => rfl, ?_, fun s => rfl⟩
  · intro s
    unfold afterRest
    split_ifs <;> exact ⟨rfl, rfl, rfl, rfl⟩
  · intro s h
    unfold afterRest
    rw [if_pos h]
  · intro s h
    unfold afterRest
    rw [if_neg h]
  · intro w s
    cases hsec : w.sections[s.sectionIndex]? with
    | none => left; simp only [completeSet, hsec]
    | some sec =>
      cases hex : sec.exercises[s.exerciseIndex]? with
      | none => left; simp only [completeSet, hsec, hex]
      | some ex =>
        have hget : getExercise w s = some ex := by
          unfold getExercise
          rw [hsec, Option.some_bind, hex]
        simp only [completeSet, hsec, hex]
        split_ifs
        · exact Or.inr ⟨ex, hget, rfl⟩
        · exact Or.inr ⟨ex, hget, rfl⟩
        · exact Or.inr ⟨ex, hget, rfl⟩
        · exact Or.inl rfl

/-- C9 amended, instantiated: from a resting state `afterRest` flips only the
phase. -/
theorem C9_afterRest_frame_witness :
    afterRest { INITIAL_STATE with phase := .RESTING } =
      { { INITIAL_STATE with phase := .RESTING } with phase := .EXERCISING } :=
  C9_afterRest_frame.2.1 { INITIAL_STATE with phase := .RESTING } rfl

/-! ## C6: the timer runs to completion -/

/-- Interval firings commute with a leading firing. -/
lemma ticks_comm (k : ℕ) (s : TimerState) : ticks k (tickT s) = tickT (ticks k s) := by
  induction k generalizing s with
  | zero => rfl
  | succ k ih =>
    simp only [ticks]
    rw [ih]

/-- A live interval with more than one second left just decrements. -/
lemma tickT_dec (s : TimerState) (hticking : s.ticking = true)
    (h : ¬ s.timeRemaining ≤ 1) :
    tickT s = { s with timeRemaining := s.timeRemaining - 1 } := by
  simp [tickT, hticking, h]

/-- While more than `k` seconds remain, `k` firings decrement one second
each, keeping the timer running. -/
lemma ticks_running (c : ℕ) (tt : ℤ) (k : ℕ) (t : ℤ) (hk : (k : ℤ) < t) :
    ticks k
        { timeRemaining := t, totalTime := tt, status := .running,
          ticking := true, completions := c } =
      { timeRemaining := t - k, totalTime := tt, status := .running,
        ticking := true, completions := c } := by
  induction k generalizing t with
  | zero => simp [ticks]
  | succ k ih =>
    have hk1 : ((k : ℤ)) < t - 1 := by push_cast at hk; omega
    have hle : ¬ t ≤ 1 := by push_cast at hk; omega
    have hstep :
        tickT
            { timeRemaining := t, totalTime := tt, status := .running,
              ticking := true, completions := c } =
          { timeRemaining := t - 1, totalTime := tt, status := .running,
            ticking := true, completions := c } := by
      simp [tickT, hle]
    have hcast : t - 1 - (k : ℤ) = t - ((k : ℕ) + 1 : ℕ) := by push_cast; ring
    rw [ticks, hstep, ih (t - 1) hk1, hcast]

/-- C6: `start(d)` for an integer `d ≥ 1` and running the interval to
completion: every intermediate firing decrements `timeRemaining` by exactly 1
with the timer still running; the `d`-th firing clamps to 0, finishes, and
fires the completion callback exactly once; after that the interval is dead
and a further firing changes nothing. -/
theorem C6_run_to_completion (s : TimerState) (d : ℤ) (hd : 1 ≤ d) :
    (∀ k : ℕ, (k : ℤ) < d →
      ticks k (startT d s) =
        { timeRemaining := d - k, totalTime := d, status := .running,
          ticking := true, completions := s.completions }) ∧
      ticks d.toNat (startT d s) =
        { timeRemaining := 0, totalTime := d, status := .finished,
          ticking := false, completions := s.completions + 1 } ∧
      tickT (ticks d.toNat (startT d s)) = ticks d.toNat (startT d s) := by
  have hstart :
      startT d s =
        { timeRemaining := d, totalTime := d, status := .running,
          ticking := true, completions := s.completions } := rfl
  have hrun : ∀ k : ℕ, (k : ℤ) < d →
      ticks k (startT d s) =
        { timeRemaining := d - k, totalTime := d, status := .running,
          ticking := true, completions := s.completions } := by
    intro k hk
    rw [hstart]
    exact ticks_running s.completions d k d hk
  have hlastlt : ((d - 1).toNat : ℤ) < d := by omega
  have hone : d - ((d - 1).toNat : ℤ) = 1 := by omega
  have hsplitn : d.toNat = (d - 1).toNat + 1 := by omega
  have hfin :
      ticks d.toNat (startT d s) =
        { timeRemaining := 0, totalTime := d, status := .finished,
          ticking := false, completions := s.completions + 1 } := by
    rw [hsplitn, ticks, ticks_comm, hrun _ hlastlt, hone]
    simp [tickT]
  refine ⟨hrun, hfin, ?_⟩
  rw [hfin]
  simp [tickT]

/-- C6, instantiated at `start(2)` on a fresh timer of initial duration 2. -/
theorem C6_run_to_completion_witness :
    ticks 2 (startT 2 (initTimer 2)) =
      { timeRemaining := 0, totalTime := 2, status := .finished,
        ticking := false, completions := 1 } :=
  (C6_run_to_completion (initTimer 2) 2 (by norm_num)).2.1

/-! ## C2: completedExercises at the moment of completion -/

/-- The exercise-count `reduce` is the sum of the per-section counts. -/
lemma foldl_exercise_count (l : List WorkoutSection) (n : ℕ) :
    l.foldl (fun sum sec => sum + sec.exercises.length) n =
      n + (l.map fun sec => sec.exercises.length).sum := by
  induction l generalizing n with
  | nil => simp
  | cons x xs ih =>
    simp only [List.foldl_cons, List.map_cons, List.sum_cons, ih]
    omega

/-- Splitting the mapped sum of a list at its last element. -/
lemma sum_map_take_last {α : Type} (f : α → ℕ) :
    ∀ (l : List α) (k : ℕ) (a : α), l.length = k + 1 → l[k]? = some a →
      (l.map f).sum = ((l.take k).map f).sum + f a := by
  intro l
  induction l with
  | nil => intro k a hlen _; simp at hlen
  | cons x xs ih =>
    intro k a hlen hget
    cases k with
    | zero =>
      have hxs : xs = [] := by
        have : xs.length = 0 := by simpa using hlen
        exact List.length_eq_zero.mp this
      subst hxs
      have hax : x = a := by simpa using hget
      subst hax
      simp
    | succ k =>
      have hlen' : xs.length = k + 1 := by simpa using hlen
      have hget' : xs[k]? = some a := by simpa using hget
      simp only [List.map_cons, List.sum_cons, List.take_succ_cons, ih k a hlen' hget']
      omega

/-- C2 counterexample: in the one-exercise workout, the `completeSet` call
that first sets `phase = COMPLETED` leaves `completedExercises = 0`, not the
claimed `totalExercises = 1`. -/
theorem C2_counterexample :
    (startWorkout INITIAL_STATE).phase ≠ WorkoutPhase.COMPLETED ∧
      (completeSet singleWorkout (startWorkout INITIAL_STATE)).phase =
        WorkoutPhase.COMPLETED ∧
      totalExercises singleWorkout = 1 ∧
      completedExercises singleWorkout
          (completeSet singleWorkout (startWorkout INITIAL_STATE)) = 0 := by
  decide

/-- C2 amended: the `completeSet` call that completes the workout (last set of
the last exercise of the last section) sets `phase = COMPLETED` but leaves the
cursors untouched, so immediately afterwards `completedExercises` equals
`N - 1`, one short of the total exercise count. -/
theorem C2_completedExercises_at_completion (w : Workout) (s : WorkoutState)
    (sec : WorkoutSection) (ex : Exercise)
    (hsec : w.sections[s.sectionIndex]? = some sec)
    (hex : sec.exercises[s.exerciseIndex]? = some ex)
    (hset : ex.sets ≤ s.currentSet)
    (hlastEx : s.exerciseIndex = sec.exercises.length - 1)
    (hlastSec : s.sectionIndex = w.sections.length - 1) :
    (completeSet w s).phase = WorkoutPhase.COMPLETED ∧
      completedExercises w (completeSet w s) + 1 = totalExercises w := by
  have hslen : s.sectionIndex < w.sections.length :=
    (List.getElem?_eq_some.mp hsec).1
  have helen : s.exerciseIndex < sec.exercises.length :=
    (List.getElem?_eq_some.mp hex).1
  have hc4 : completeSet w s = { s with phase := .COMPLETED } := by
    simp only [completeSet, hsec, hex]
    split_ifs with h1 h2 h3
    · exact absurd h1 (by omega)
    · exact absurd h2 (by omega)
    · exact absurd h3 (by omega)
    · rfl
  rw [hc4]
  refine ⟨rfl, ?_⟩
  simp only [completedExercises, totalExercises]
  rw [foldl_exercise_count, foldl_exercise_count]
  have hsum : (w.sections.map fun sec => sec.exercises.length).sum =
      ((w.sections.take s.sectionIndex).map fun sec => sec.exercises.length).sum +
        sec.exercises.length :=
    sum_map_take_last (fun sec => sec.exercises.length) w.sections
      s.sectionIndex sec (by omega) hsec
  omega

/-- C2 amended, instantiated on the one-exercise workout: completion leaves
`completedExercises = 0 = totalExercises - 1`. -/
theorem C2_completedExercises_at_completion_witness :
    (completeSet singleWorkout (startWorkout INITIAL_STATE)).phase =
        WorkoutPhase.COMPLETED ∧
      completedExercises singleWorkout
            (completeSet singleWorkout (startWorkout INITIAL_STATE)) + 1 =
        totalExercises singleWorkout :=
  C2_completedExercises_at_completion singleWorkout (startWorkout INITIAL_STATE)
    singleSection plank (by decide) (by decide) (by decide) (by decide) (by decide)

/-! ## C7: cursor invariants of the session state machine -/

/-- The inductive invariant: both cursors resolve, and the 1-indexed set
counter lies between 1 and the current exercise's set count.  (It holds in
every reachable state, including `COMPLETED`, since the completing transition
leaves the cursors untouched.) -/
def SessionInv (w : Workout) (s : WorkoutState) : Prop :=
  ∃ sec ex, w.sections[s.sectionIndex]? = some sec ∧
    sec.exercises[s.exerciseIndex]? = some ex ∧
    1 ≤ s.currentSet ∧ s.currentSet ≤ ex.sets

/-- The invariant holds in the initial state of a well-formed workout. -/
lemma sessionInv_init {w : Workout} (hwf : WellFormed w) :
    SessionInv w INITIAL_STATE := by
  obtain ⟨hne, hsecs⟩ := hwf
  have h0 : 0 < w.sections.length := List.length_pos.mpr hne
  set sec := w.sections[0]
  have hmem : sec ∈ w.sections := List.getElem_mem h0
  have hexne : sec.exercises ≠ [] := (hsecs sec hmem).1
  have he0 : 0 < sec.exercises.length := List.length_pos.mpr hexne
  refine ⟨sec, sec.exercises[0], List.getElem?_eq_getElem h0,
    List.getElem?_eq_getElem he0, le_rfl, ?_⟩
  exact (hsecs sec hmem).2 _ (List.getElem_mem he0)

/-- `completeSet` preserves the invariant on a well-formed workout. -/
lemma sessionInv_completeSet {w : Workout} {s : WorkoutState}
    (hwf : WellFormed w) (h : SessionInv w s) : SessionInv w (completeSet w s) := by
  obtain ⟨sec, ex, hsec, hex, h1, h2⟩ := h
  have hslen : s.sectionIndex < w.sections.length :=
    (List.getElem?_eq_some.mp hsec).1
  have helen : s.exerciseIndex < sec.exercises.length :=
    (List.getElem?_eq_some.mp hex).1
  simp only [completeSet, hsec, hex]
  split_ifs with hb1 hb2 hb3
  · exact ⟨sec, ex, hsec, hex,
      by show 1 ≤ s.currentSet + 1; omega,
      by show s.currentSet + 1 ≤ ex.sets; omega⟩
  · have hlt : s.exerciseIndex + 1 < sec.exercises.length := by omega
    have hmem : sec ∈ w.sections := List.getElem?_mem hsec
    refine ⟨sec, sec.exercises[s.exerciseIndex + 1], hsec,
      List.getElem?_eq_getElem hlt, le_rfl, ?_⟩
    exact (hwf.2 sec hmem).2 _ (List.getElem_mem hlt)
  · have hslt : s.sectionIndex + 1 < w.sections.length := by omega
    set sec' := w.sections[s.sectionIndex + 1]
    have hmem : sec' ∈ w.sections := List.getElem_mem hslt
    have hexne : sec'.exercises ≠ [] := (hwf.2 sec' hmem).1
    have he0 : 0 < sec'.exercises.length := List.length_pos.mpr hexne
    refine ⟨sec', sec'.exercises[0], List.getElem?_eq_getElem hslt,
      List.getElem?_eq_getElem he0, le_rfl, ?_⟩
    exact (hwf.2 sec' hmem).2 _ (List.getElem_mem he0)
  · exact ⟨sec, ex, hsec, hex, h1, h2⟩

/-- The invariant holds in every reachable state of a well-formed workout. -/
lemma sessionInv_of_reachable {w : Workout} {s : WorkoutState}
    (hwf : WellFormed w) (hr : SessionReachable w s) : SessionInv w s := by
  induction hr with
  | init => exact sessionInv_init hwf
  | start _ ih => exact ih
  | complete _ ih => exact sessionInv_completeSet hwf ih
  | rest _ ih =>
    unfold afterRest
    split_ifs <;> exact ih
  | restart _ _ => exact sessionInv_init hwf

/-- C7: in every reachable state of a well-formed workout, the cursors are in
range while not `COMPLETED`, `currentSet ≥ 1` always, and `currentSet` is
bounded by the current exercise's set count while `EXERCISING`. -/
theorem C7_session_invariant (w : Workout) (s : WorkoutState)
    (hwf : WellFormed w) (hr : SessionReachable w s) :
    (s.phase ≠ WorkoutPhase.COMPLETED → s.sectionIndex < w.sections.length) ∧
      (s.phase ≠ WorkoutPhase.COMPLETED → ∀ sec,
        w.sections[s.sectionIndex]? = some sec →
          s.exerciseIndex < sec.exercises.length) ∧
      1 ≤ s.currentSet ∧
      (s.phase = WorkoutPhase.EXERCISING → ∀ sec ex,
        w.sections[s.sectionIndex]? = some sec →
          sec.exercises[s.exerciseIndex]? = some ex →
            s.currentSet ≤ ex.sets) := by
  obtain ⟨sec, ex, hsec, hex, h1, h2⟩ := sessionInv_of_reachable hwf hr
  have hslen : s.sectionIndex < w.sections.length :=
    (List.getElem?_eq_some.mp hsec).1
  have helen : s.exerciseIndex < sec.exercises.length :=
    (List.getElem?_eq_some.mp hex).1
  refine ⟨fun _ => hslen, fun _ sec' hsec' => ?_, h1, fun _ sec' ex' hsec' hex' => ?_⟩
  · obtain rfl : sec' = sec := Option.some.inj (hsec'.symm.trans hsec)
    exact helen
  · obtain rfl : sec' = sec := Option.some.inj (hsec'.symm.trans hsec)
    obtain rfl : ex' = ex := Option.some.inj (hex'.symm.trans hex)
    exact h2

/-- C7, instantiated at the initial state of the demo workout. -/
theorem C7_session_invariant_witness :
    1 ≤ INITIAL_STATE.currentSet :=
  (C7_session_invariant demoWorkout INITIAL_STATE (by decide)
      SessionReachable.init).2.2.1

/-! ## C10: a running timer never holds 0 -/

/-- C10 counterexample: with initial duration 1 (an integer ≥ 1, and every
`start` duration ≥ 1), letting the timer finish, then `pause()` (no status
guard) followed by `resume()` reaches a state with `status = running` and
`timeRemaining = 0`. -/
theorem C10_counterexample :
    TimerReachable 1 (resumeT (pauseT (tickT (startT 1 (initTimer 1))))) ∧
      (resumeT (pauseT (tickT (startT 1 (initTimer 1))))).status =
        TimerStatus.running ∧
      (resumeT (pauseT (tickT (startT 1 (initTimer 1))))).timeRemaining = 0 := by
  refine ⟨?_, by decide, by decide⟩
  exact TimerReachable.resume (TimerReachable.pause (TimerReachable.tick
    (TimerReachable.start 1 le_rfl TimerReachable.init)))

/-- The inductive timer invariant under disciplined pausing: a live interval
implies `running`; any unfinished status holds at least one second; `finished`
holds exactly zero. -/
def TimerInvG (s : TimerState) : Prop :=
  (s.ticking = true → s.status = TimerStatus.running) ∧
    (s.status ≠ TimerStatus.finished → 1 ≤ s.timeRemaining) ∧
    (s.status = TimerStatus.finished → s.timeRemaining = 0)

/-- The timer invariant holds in every state reachable with `pause()` only
ever called while running. -/
lemma timerInvG_of_reachable {initialDuration : ℤ} {s : TimerState}
    (hinit : 1 ≤ initialDuration) (hr : TimerReachableG initialDuration s) :
    TimerInvG s := by
  induction hr with
  | init =>
    exact ⟨fun h => by simp [initTimer] at h, fun _ => hinit,
      fun h => by simp [initTimer] at h⟩
  | start d hd _ ih =>
    exact ⟨fun _ => rfl, fun _ => hd, fun h => by simp [startT] at h⟩
  | pause hrun _ ih =>
    refine ⟨fun h => by simp [pauseT] at h, fun _ => ?_,
      fun h => by simp [pauseT] at h⟩
    exact ih.2.1 (by rw [hrun]; simp)
  | resume _ ih =>
    unfold resumeT
    split_ifs with hp
    · exact ⟨fun _ => rfl, fun _ => ih.2.1 (by rw [hp]; simp),
        fun h => by simp at h⟩
    · exact ih
  | reset _ _ =>
    exact ⟨fun h => by simp [resetT] at h, fun _ => hinit,
      fun h => by simp [resetT] at h⟩
  | @tick t _ ih =>
    unfold tickT
    split_ifs with ht hle
    · exact ⟨fun h => by simp at h, fun h => by simp at h, fun _ => rfl⟩
    · have hrun : t.status = TimerStatus.running := ih.1 ht
      have hpos : (1 : ℤ) ≤ t.timeRemaining := ih.2.1 (by rw [hrun]; simp)
      refine ⟨fun _ => hrun, fun _ => ?_,
        fun h => absurd (hrun.symm.trans h) (by simp)⟩
      show (1 : ℤ) ≤ t.timeRemaining - 1
      omega
    · exact ih

/-- C10 amended: provided the initial duration and every `start` duration are
integers ≥ 1 *and* `pause()` is only invoked while the timer is running (the
unguarded `pause()` of a finished timer followed by `resume()` violates the
original claim), every reachable state satisfies: `running` implies
`timeRemaining ≥ 1`, and `finished` implies `timeRemaining = 0` — so
`timeRemaining` hits 0 only in the tick that finishes the timer. -/
theorem C10_running_positive (initialDuration : ℤ) (s : TimerState)
    (hinit : 1 ≤ initialDuration) (hr : TimerReachableG initialDuration s) :
    (s.status = TimerStatus.running → 1 ≤ s.timeRemaining) ∧
      (s.status = TimerStatus.finished → s.timeRemaining = 0) := by
  have h := timerInvG_of_reachable hinit hr
  exact ⟨fun hs => h.2.1 (by rw [hs]; simp), h.2.2⟩

/-- C10 amended, instantiated just after `start(1)` on a fresh timer. -/
theorem C10_running_positive_witness :
    1 ≤ (startT 1 (initTimer 1)).timeRemaining :=
  (C10_running_positive 1 (startT 1 (initTimer 1)) le_rfl
      (TimerReachableG.start 1 le_rfl TimerReachableG.init)).1 rfl

end WorkoutTracker
